import Mathlib

/-!
# daemonsync: a shallow embedding of `daemonsync.c`

The C program keeps its state in three files of the run directory (PID file,
config file, log file) and in the process table.  The embedding makes that
state explicit (`Sys`), threads it through every operation together with the
standard output and the list of system calls made (`St`), and takes what the
rest of the system does as an explicit oracle (`Env`).

File contents and C strings are lists of characters; a C string ends at its
first NUL, so the words of `argv` are lists without NUL, while the content of
a file may hold any character.  `int` values are `Int`; the only place where a value can leave the
`int` range is the `%d` conversion of `fscanf`, modelled as on LP64 Linux
(the digits are converted as by `strtol`, saturating at the `long` range, and
the result is stored into the `int` by truncation to 32 bits).
-/

namespace Daemonsync

/-! ## Constants of the source -/

def MAX_CMD_LEN : Nat := 1024

def SIGINT : Nat := 2

def SIGKILL : Nat := 9

/-- The NUL character, which ends every C string. -/
def NUL : Char := Char.ofNat 0

/-! ## C library functions used by the program -/

/-- The C string held by a buffer: its characters up to the first NUL. -/
def cstr (buf : List Char) : List Char :=
  buf.takeWhile (fun c => c != NUL)

/-- The reading loop of `fgets`: at most `n` characters are taken from the
stream, and reading stops after a newline.  The result is the characters
stored and the rest of the stream. -/
def fgets_read : Nat → List Char → List Char × List Char
  | 0, fp => ([], fp)
  | _ + 1, [] => ([], [])
  | n + 1, c :: fp =>
    if c = '\n' then ([c], fp)
    else ((c :: (fgets_read n fp).1), (fgets_read n fp).2)

/-- `fgets(buf, size, fp)`: `none` is the NULL result at end of file; otherwise
at most `size - 1` characters are stored. -/
def fgets (size : Nat) (fp : List Char) : Option (List Char × List Char) :=
  match fp with
  | [] => none
  | _ :: _ => some (fgets_read (size - 1) fp)

/-- `strcspn(s, reject)`: the length of the initial part of the C string `s`
that has no character of `reject`. -/
def strcspn (s reject : List Char) : Nat :=
  ((cstr s).takeWhile (fun c => !(reject.contains c))).length

/-- `isspace` in the C locale. -/
def isspace (c : Char) : Bool :=
  c = ' ' || c = '\t' || c = '\n' || c = Char.ofNat 11 || c = Char.ofNat 12 || c = '\r'

/-- `isdigit`. -/
def isdigit (c : Char) : Bool :=
  decide ('0'.toNat ≤ c.toNat ∧ c.toNat ≤ '9'.toNat)

/-- The value of a string of decimal digits. -/
def decVal (ds : List Char) : Nat :=
  ds.foldl (fun acc c => 10 * acc + (c.toNat - '0'.toNat)) 0

/-- Saturation at the range of `long` (64 bits), as `strtol` does. -/
def clampLong (x : Int) : Int :=
  if x < -(2 ^ 63) then -(2 ^ 63) else if 2 ^ 63 - 1 < x then 2 ^ 63 - 1 else x

/-- Truncation of a `long` to a 32-bit `int`. -/
def toInt32 (x : Int) : Int :=
  (x + 2 ^ 31) % 2 ^ 32 - 2 ^ 31

/-- The digits of a `%d` conversion, after the optional sign: `none` is a
matching failure (no digit). -/
def scan_digits (neg : Bool) (s : List Char) : Option Int :=
  match s.takeWhile isdigit with
  | [] => none
  | d :: ds =>
    some (toInt32 (clampLong (if neg then -((decVal (d :: ds) : Nat) : Int) else (decVal (d :: ds) : Nat))))

/-- `fscanf(fp, "%d", &pid)` on a stream: leading white space is skipped, an
optional sign is read, then decimal digits.  `some v` means the call returned 1
and stored `v`; `none` means it returned something else (0 or EOF). -/
def fscanf_d (fp : List Char) : Option Int :=
  match fp.dropWhile isspace with
  | [] => none
  | c :: rest =>
    if c = '-' then scan_digits true rest
    else if c = '+' then scan_digits false rest
    else scan_digits false (c :: rest)

/-- The text `fprintf(fp, "%d", n)` writes. -/
def fmt_d (n : Int) : List Char :=
  if n < 0 then '-' :: Nat.toDigits 10 n.natAbs else Nat.toDigits 10 n.natAbs

/-! ## System state, environment and program state -/

/-- The part of the operating system the program reads and changes.
`pidFile` and `cnfFile` are `none` when `fopen(.., "r")` fails (the file is
missing or unreadable), and hold the content otherwise.  `cnfWritable` and
`pidWritable` say whether `fopen(.., "w")` succeeds, `logOpenable` and
`nullOpenable` whether the log file and `/dev/null` can be opened.
`alive pid` says whether `kill(pid, 0)` returns 0. -/
structure Sys where
  pidFile : Option (List Char)
  cnfFile : Option (List Char)
  cnfWritable : Bool
  pidWritable : Bool
  logOpenable : Bool
  nullOpenable : Bool
  alive : Int → Bool

/-- System calls and library calls with an effect outside the process, in the
order the program makes them. -/
inductive Event where
  | kill (pid : Int) (sig : Nat)
  | sleep
  | unlink_pid
  | fopen_cnf_w
  | fopen_pid_w
  | perror (msg : List Char)
  | fork
  | setsid
  | chdir
  | close_all
  | open_log
  | dup2 (fd : Nat)
  | open_null
  | execl (cmd : List Char)
  deriving DecidableEq

/-- What the program cannot decide itself.  `tick n` is what the rest of the
system (the daemon, the signalled process, anybody else) does to the files and
the process table during the `n`-th `sleep(1)` of this process; `forkRet n` is
the value the `n`-th `fork()` returns in the process that is followed;
`selfPid` is `getpid()`; `execlOk` says whether `execl` replaces the process
image. -/
structure Env where
  tick : Nat → Sys → Sys
  forkRet : Nat → Int
  selfPid : Int
  execlOk : Bool

/-- The state of one run of the program: the system, how many times it has
slept and forked, what it has printed on standard output, and its calls. -/
structure St where
  sys : Sys
  clock : Nat
  forks : Nat
  out : List Char
  trace : List Event

/-- The state of a process that has just started. -/
def St.init (sys : Sys) : St :=
  { sys := sys, clock := 0, forks := 0, out := [], trace := [] }

/-- How a function of the program ends: it returns a value, the process
exits, or the process image is replaced by `/bin/sh -c cmd`. -/
inductive Outcome where
  | ret (code : Int)
  | exited (code : Int)
  | exec (cmd : List Char)
  deriving DecidableEq

def printf (s : List Char) (st : St) : St :=
  { st with out := st.out ++ s }

def emit (e : Event) (st : St) : St :=
  { st with trace := st.trace ++ [e] }

/-- `sleep(1)`: the rest of the system runs. -/
def sleep (env : Env) (st : St) : St :=
  { st with sys := env.tick st.clock st.sys, clock := st.clock + 1,
            trace := st.trace ++ [Event.sleep] }

/-- `fork()`: the value returned in the process that is followed. -/
def fork (env : Env) (st : St) : Int × St :=
  (env.forkRet st.forks, { st with forks := st.forks + 1, trace := st.trace ++ [Event.fork] })

/-- `unlink(pid_file)`; the program ignores the result, and the removal is
taken to succeed. -/
def unlink_pid (st : St) : St :=
  { st with sys := { st.sys with pidFile := none }, trace := st.trace ++ [Event.unlink_pid] }

/-! ## The program -/

/-- `read_pid`: -1 when the PID file cannot be opened or `fscanf` does not
return 1, the scanned value otherwise. -/
def read_pid (sys : Sys) : Int :=
  match sys.pidFile with
  | none => -1
  | some fp =>
    match fscanf_d fp with
    | none => -1
    | some pid => pid

/-- `is_process_running`: `kill(pid, 0) == 0`. -/
def is_process_running (pid : Int) (st : St) : Bool × St :=
  (st.sys.alive pid, emit (Event.kill pid 0) st)

/-- The condition `pid > 0 && is_process_running(pid)`; the probe is made
only when `pid > 0`. -/
def pid_live (pid : Int) (st : St) : Bool × St :=
  if pid > 0 then is_process_running pid st else (false, st)

/-- `write_pid`: nothing is written when the file cannot be opened. -/
def write_pid (pid : Int) (st : St) : St :=
  if st.sys.pidWritable then
    { st with sys := { st.sys with pidFile := some (fmt_d pid) },
              trace := st.trace ++ [Event.fopen_pid_w] }
  else emit Event.fopen_pid_w st

def check_status (st : St) : Int × St :=
  let pid := read_pid st.sys
  let r := pid_live pid st
  if r.1 then (0, printf "running\n".toList r.2)
  else (0, printf "stopped\n".toList r.2)

/-- The polling loop of `stop_daemon`, with `n` iterations left.  `some 0` is
the `return 0` inside the loop, `none` means the loop ran to its end. -/
def stop_daemon_loop (env : Env) (pid : Int) : Nat → St → Option Int × St
  | 0, st => (none, st)
  | n + 1, st =>
    let r := is_process_running pid (sleep env st)
    if !r.1 then (some 0, unlink_pid (printf "stopped\n".toList r.2))
    else stop_daemon_loop env pid n r.2

def stop_daemon (env : Env) (st : St) : Int × St :=
  let pid := read_pid st.sys
  let r := pid_live pid st
  if !r.1 then (0, printf "stopped\n".toList r.2)
  else
    let st1 := emit (Event.kill pid SIGINT) r.2
    match stop_daemon_loop env pid 10 st1 with
    | (some code, st2) => (code, st2)
    | (none, st2) =>
      let st3 := emit (Event.kill pid SIGKILL) st2
      let st4 := sleep env st3
      (0, unlink_pid (printf "terminated\n".toList st4))

/-- The polling loop of the parent in `run_daemon`, with `n` iterations
left. -/
def run_daemon_loop (env : Env) : Nat → St → Int × St
  | 0, st => (0, printf "stopped\n".toList st)
  | n + 1, st =>
    let st1 := sleep env st
    let daemon_pid := read_pid st1.sys
    let r := pid_live daemon_pid st1
    if r.1 then (0, printf "running\n".toList r.2)
    else run_daemon_loop env n r.2

/-- The daemon process of `run_daemon`, after the second fork. -/
def run_daemon_child (env : Env) (cmd : List Char) (st : St) : Outcome × St :=
  let st1 := emit Event.close_all (emit Event.chdir st)
  let st2 := emit Event.open_log st1
  if !st2.sys.logOpenable then (Outcome.exited 1, st2)
  else
    let st3 := emit (Event.dup2 2) (emit (Event.dup2 1) st2)
    let st4 := if st3.sys.nullOpenable then emit (Event.dup2 0) (emit Event.open_null st3)
               else emit Event.open_null st3
    let st5 := write_pid env.selfPid st4
    let st6 := emit (Event.execl cmd) st5
    if env.execlOk then (Outcome.exec cmd, st6) else (Outcome.exited 1, st6)

def run_daemon (env : Env) (st : St) : Outcome × St :=
  let pid := read_pid st.sys
  let r := pid_live pid st
  if r.1 then (Outcome.ret 1, printf "running\n".toList r.2)
  else
    match r.2.sys.cnfFile with
    | none => (Outcome.ret 1, printf "Error: No configuration file found\n".toList r.2)
    | some fp =>
      match fgets MAX_CMD_LEN fp with
      | none => (Outcome.ret 1, printf "Error: Empty configuration file\n".toList r.2)
      | some (buf, _) =>
        let cmd := (cstr buf).take (strcspn buf ['\n'])
        let f1 := fork env r.2
        if f1.1 < 0 then (Outcome.ret 1, emit (Event.perror "fork".toList) f1.2)
        else if f1.1 > 0 then
          let w := run_daemon_loop env 10 f1.2
          (Outcome.ret w.1, w.2)
        else
          let f2 := fork env (emit Event.setsid f1.2)
          if f2.1 < 0 then (Outcome.exited 1, f2.2)
          else if f2.1 > 0 then (Outcome.exited 0, f2.2)
          else run_daemon_child env cmd f2.2

/-- The text the loop of `set_config` writes for the words `argv[2..]`: each
word, followed by a space unless it is the last one. -/
def set_config_args : List (List Char) → List Char
  | [] => []
  | [w] => w ++ "".toList
  | w :: w2 :: ws => w ++ " ".toList ++ set_config_args (w2 :: ws)

/-- `set_config(argc, argv)` with `argc = argv.length`; the words are
`argv[2]`, ..., `argv[argc - 1]`. -/
def set_config (argv : List (List Char)) (st : St) : Int × St :=
  let pid := read_pid st.sys
  let r := pid_live pid st
  if r.1 then (1, printf "Error: Stop daemon before changing configuration\n".toList r.2)
  else
    let st1 := emit Event.fopen_cnf_w r.2
    if !st1.sys.cnfWritable then (1, emit (Event.perror "Error opening config file".toList) st1)
    else
      let text := set_config_args (argv.drop 2) ++ "\n".toList
      let st2 := { st1 with sys := { st1.sys with cnfFile := some text } }
      (0, printf "Configuration updated\n".toList st2)

/-- The loop of `get_config`: lines are read with `fgets` and printed with
`printf("%s", line)` until `fgets` returns NULL.  `none` means the fuel ran
out before the end of the file. -/
def get_config_loop : Nat → List Char → St → Option St
  | 0, _, _ => none
  | fuel + 1, fp, st =>
    match fgets MAX_CMD_LEN fp with
    | none => some st
    | some (line, fp1) => get_config_loop fuel fp1 (printf (cstr line) st)

/-- `get_config`; the fuel given to the loop is one more than the length of
the file. -/
def get_config (st : St) : Option (Int × St) :=
  match st.sys.cnfFile with
  | none => some (1, printf "No configuration file found\n".toList st)
  | some fp =>
    match get_config_loop (fp.length + 1) fp st with
    | none => none
    | some st1 => some (0, st1)

/-! ## Predicates and functions used to state the properties -/

/-- Every `kill` call of a trace is made with a strictly positive pid. -/
def PosKills (tr : List Event) : Prop :=
  ∀ pid sig, Event.kill pid sig ∈ tr → 0 < pid

/-- The words joined by single spaces, as the specification says it. -/
def spec_join_words (words : List (List Char)) : List Char :=
  List.intercalate [' '] words

/-- A live daemon is recorded: the PID file gives a positive pid and the
liveness probe of that pid succeeds. -/
def live_recorded (s : Sys) : Bool :=
  decide (0 < read_pid s) && s.alive (read_pid s)

/-- The system after `k` sleeps of a process whose clock shows `c`, when the
process itself changes nothing in between. -/
def sysAfter (env : Env) : Nat → Nat → Sys → Sys
  | 0, _, s => s
  | k + 1, c, s => sysAfter env k (c + 1) (env.tick c s)

/-- The command line `run_daemon` keeps of a config line: what fits in the
buffer of `MAX_CMD_LEN` characters, up to the first newline. -/
def cmd_of_line (line : List Char) : List Char :=
  (line.take (MAX_CMD_LEN - 1)).takeWhile (fun c => c != '\n')

/-- The calls of `k` rounds of the polling loop of `stop_daemon`: a sleep and
a liveness probe of `pid` in each round. -/
def stopPolls (pid : Int) : Nat → List Event
  | 0 => []
  | k + 1 => Event.sleep :: Event.kill pid 0 :: stopPolls pid k

/-- The calls of `k` rounds of the polling loop of `run_daemon`, started when
the clock shows `c` on system `s`: a sleep in each round, and a liveness probe
when the PID file read in that round gives a positive pid. -/
def runPolls (env : Env) : Nat → Nat → Sys → List Event
  | 0, _, _ => []
  | k + 1, c, s =>
    Event.sleep ::
      ((if 0 < read_pid (env.tick c s) then [Event.kill (read_pid (env.tick c s)) 0] else [])
        ++ runPolls env k (c + 1) (env.tick c s))

/-! ## Concrete states and environments used as inputs -/

/-- A daemon, pid 4242, is recorded and live, and a command is configured. -/
def sysRunning : Sys :=
  { pidFile := some "4242".toList, cnfFile := some "sleep 30\n".toList, cnfWritable := true,
    pidWritable := true, logOpenable := true, nullOpenable := true, alive := fun p => p == 4242 }

/-- Nothing has been configured or started: no PID file, no config file. -/
def sysFresh : Sys :=
  { pidFile := none, cnfFile := none, cnfWritable := true, pidWritable := true,
    logOpenable := true, nullOpenable := true, alive := fun _ => false }

/-- Nothing happens during the sleeps; forks return the pid of the child. -/
def envIdle : Env :=
  { tick := fun _ s => s, forkRet := fun _ => 4242, selfPid := 4243, execlOk := true }

/-- No daemon recorded, and a config file that holds a single newline. -/
def sysNewlineCnf : Sys :=
  { pidFile := none, cnfFile := some "\n".toList, cnfWritable := true, pidWritable := true,
    logOpenable := true, nullOpenable := true, alive := fun _ => false }

/-- No daemon recorded, and a config file that holds blanks and a newline. -/
def sysBlankCnf : Sys :=
  { pidFile := none, cnfFile := some "  \n".toList, cnfWritable := true, pidWritable := true,
    logOpenable := true, nullOpenable := true, alive := fun _ => false }

/-- No daemon recorded, and a config file of zero bytes. -/
def sysEmptyCnf : Sys :=
  { pidFile := none, cnfFile := some [], cnfWritable := true, pidWritable := true,
    logOpenable := true, nullOpenable := true, alive := fun _ => false }

/-- The environment seen by the daemon process: both forks return 0. -/
def envDaemon : Env :=
  { tick := fun _ s => s, forkRet := fun _ => 0, selfPid := 4243, execlOk := true }

/-- A PID file whose content is a number followed by other characters. -/
def sysPidThenText : Sys :=
  { pidFile := some "123abc".toList, cnfFile := none, cnfWritable := true, pidWritable := true,
    logOpenable := true, nullOpenable := true, alive := fun _ => false }

/-- A single word of 1024 characters. -/
def longWord : List Char := List.replicate 1024 'a'

/-- A single word with a newline inside. -/
def twoLineWord : List Char := ['a', '\n', 'b']

/-- A recorded daemon, pid 4242, that is gone after the third sleep. -/
def envDiesAtThree : Env :=
  { tick := fun n s => if n = 2 then { s with alive := fun _ => false } else s,
    forkRet := fun _ => 4242, selfPid := 4243, execlOk := true }

/-- The daemon, pid 4243, writes its PID file during the second sleep of the
caller. -/
def envStartsAtTwo : Env :=
  { tick := fun n s =>
      if n = 1 then { s with pidFile := some "4243".toList, alive := fun p => p == 4243 } else s,
    forkRet := fun _ => 4242, selfPid := 4241, execlOk := true }

/-- No daemon recorded, and a config file holding a command. -/
def sysConfigured : Sys :=
  { pidFile := none, cnfFile := some "sleep 30\n".toList, cnfWritable := true,
    pidWritable := true, logOpenable := true, nullOpenable := true, alive := fun _ => false }

/-! ## Basic facts about the probes -/

theorem pid_live_pos (pid : Int) (st : St) (h : 0 < pid) :
    pid_live pid st = (st.sys.alive pid, emit (Event.kill pid 0) st) := by
  simp [pid_live, is_process_running, h]

theorem pid_live_nonpos (pid : Int) (st : St) (h : ¬ 0 < pid) :
    pid_live pid st = (false, st) := by
  simp [pid_live, h]

theorem pid_live_sys (pid : Int) (st : St) : (pid_live pid st).2.sys = st.sys := by
  by_cases h : 0 < pid
  · simp [pid_live_pos, h, emit]
  · simp [pid_live_nonpos, h]

theorem pid_live_out (pid : Int) (st : St) : (pid_live pid st).2.out = st.out := by
  by_cases h : 0 < pid
  · simp [pid_live_pos, h, emit]
  · simp [pid_live_nonpos, h]

theorem pid_live_fst (pid : Int) (st : St) :
    (pid_live pid st).1 = true ↔ (0 < pid ∧ st.sys.alive pid = true) := by
  by_cases h : 0 < pid
  · simp [pid_live_pos, h]
  · simp [pid_live_nonpos, h]

theorem pid_live_trace (pid : Int) (st : St) :
    (pid_live pid st).2.trace = st.trace ++ (if 0 < pid then [Event.kill pid 0] else []) := by
  by_cases h : 0 < pid
  · simp [pid_live_pos, h, emit]
  · simp [pid_live_nonpos, h]

/-- C4: `check_status` returns 0; it prints "running" exactly when `read_pid`
gives a positive pid whose liveness probe succeeds, and "stopped" in every
other case; it changes no file and its only calls are signal-0 probes of the
recorded pid. -/
theorem check_status_spec (sys : Sys) :
    (check_status (St.init sys)).1 = 0 ∧
    ((check_status (St.init sys)).2.out = "running\n".toList ↔
      (0 < read_pid sys ∧ sys.alive (read_pid sys) = true)) ∧
    ((check_status (St.init sys)).2.out = "stopped\n".toList ↔
      ¬ (0 < read_pid sys ∧ sys.alive (read_pid sys) = true)) ∧
    (check_status (St.init sys)).2.sys = sys ∧
    (∀ e ∈ (check_status (St.init sys)).2.trace, e = Event.kill (read_pid sys) 0) := by
  have hl := pid_live_fst (read_pid sys) (St.init sys)
  have hs := pid_live_sys (read_pid sys) (St.init sys)
  have ho := pid_live_out (read_pid sys) (St.init sys)
  have ht := pid_live_trace (read_pid sys) (St.init sys)
  by_cases h : (pid_live (read_pid sys) (St.init sys)).1 = true
  · have h2 := hl.mp h
    simp only [check_status, St.init] at *
    simp [h, printf, hs, ho, ht, h2]
  · have h2 : ¬ (0 < read_pid sys ∧ sys.alive (read_pid sys) = true) := fun hh => h (hl.mpr hh)
    simp only [check_status, St.init] at *
    simp [h, printf, hs, ho, ht, h2]

/-- C2: while the PID file records a positive pid whose liveness probe
succeeds, `set_config` returns 1 for every argument list, leaves the system
(so the config file, its existence and its content) unchanged and never opens
the config file for writing. -/
theorem set_config_refuses_while_running (argv : List (List Char)) (sys : Sys)
    (hpos : 0 < read_pid sys) (hlive : sys.alive (read_pid sys) = true) :
    (set_config argv (St.init sys)).1 = 1 ∧
    (set_config argv (St.init sys)).2.sys = sys ∧
    (set_config argv (St.init sys)).2.sys.cnfFile = sys.cnfFile ∧
    Event.fopen_cnf_w ∉ (set_config argv (St.init sys)).2.trace := by
  have hl : (pid_live (read_pid sys) (St.init sys)).1 = true :=
    (pid_live_fst _ _).mpr ⟨hpos, hlive⟩
  have hs := pid_live_sys (read_pid sys) (St.init sys)
  have ht := pid_live_trace (read_pid sys) (St.init sys)
  simp only [St.init] at hl hs ht
  simp [set_config, St.init, hl, printf, hs, ht, hpos]

/-- An instance of C2: pid 4242 is recorded and live, and `setcnf ls` is refused. -/
theorem set_config_refuses_while_running_witness :
    (set_config ["daemonsync".toList, "setcnf".toList, "ls".toList] (St.init sysRunning)).1 = 1 ∧
    (set_config ["daemonsync".toList, "setcnf".toList, "ls".toList] (St.init sysRunning)).2.sys
      = sysRunning ∧
    (set_config ["daemonsync".toList, "setcnf".toList, "ls".toList]
      (St.init sysRunning)).2.sys.cnfFile = sysRunning.cnfFile ∧
    Event.fopen_cnf_w ∉
      (set_config ["daemonsync".toList, "setcnf".toList, "ls".toList] (St.init sysRunning)).2.trace :=
  set_config_refuses_while_running _ sysRunning (by decide) (by decide)

/-- C5: when there is no recorded pid or the recorded pid is not live,
`stop_daemon` prints "stopped", returns 0, leaves the system (PID file and
config file included) as it was, and its only call, if any, is the signal-0
probe: no SIGINT, no SIGKILL, no unlink. -/
theorem stop_daemon_noop (env : Env) (sys : Sys)
    (h : ¬ (0 < read_pid sys ∧ sys.alive (read_pid sys) = true)) :
    (stop_daemon env (St.init sys)).1 = 0 ∧
    (stop_daemon env (St.init sys)).2.out = "stopped\n".toList ∧
    (stop_daemon env (St.init sys)).2.sys = sys ∧
    (∀ e ∈ (stop_daemon env (St.init sys)).2.trace, e = Event.kill (read_pid sys) 0) ∧
    (∀ pid, Event.kill pid SIGINT ∉ (stop_daemon env (St.init sys)).2.trace) ∧
    (∀ pid, Event.kill pid SIGKILL ∉ (stop_daemon env (St.init sys)).2.trace) := by
  have hl : ¬ (pid_live (read_pid sys) (St.init sys)).1 = true :=
    fun hh => h ((pid_live_fst _ _).mp hh)
  have hs := pid_live_sys (read_pid sys) (St.init sys)
  have ho := pid_live_out (read_pid sys) (St.init sys)
  have ht := pid_live_trace (read_pid sys) (St.init sys)
  simp only [St.init] at hl hs ho ht
  simp only [stop_daemon, St.init]
  simp [hl, printf, hs, ho, ht, SIGINT, SIGKILL]

/-- An instance of C5: `stop` on a system with no PID file and no config file. -/
theorem stop_daemon_noop_witness :
    (stop_daemon envIdle (St.init sysFresh)).1 = 0 ∧
    (stop_daemon envIdle (St.init sysFresh)).2.out = "stopped\n".toList ∧
    (stop_daemon envIdle (St.init sysFresh)).2.sys = sysFresh ∧
    (∀ e ∈ (stop_daemon envIdle (St.init sysFresh)).2.trace,
      e = Event.kill (read_pid sysFresh) 0) ∧
    (∀ pid, Event.kill pid SIGINT ∉ (stop_daemon envIdle (St.init sysFresh)).2.trace) ∧
    (∀ pid, Event.kill pid SIGKILL ∉ (stop_daemon envIdle (St.init sysFresh)).2.trace) :=
  stop_daemon_noop envIdle sysFresh (by decide)

/-! ## Signals are sent to positive pids only -/

theorem PosKills_nil : PosKills [] := by
  intro pid sig h; simp at h

theorem PosKills_append (a b : List Event) :
    PosKills (a ++ b) ↔ PosKills a ∧ PosKills b := by
  constructor
  · intro h
    exact ⟨fun pid sig hm => h pid sig (List.mem_append_left _ hm),
           fun pid sig hm => h pid sig (List.mem_append_right _ hm)⟩
  · rintro ⟨ha, hb⟩ pid sig hm
    rcases List.mem_append.mp hm with h | h
    · exact ha pid sig h
    · exact hb pid sig h

theorem PosKills_kill (pid : Int) (sig : Nat) (h : 0 < pid) : PosKills [Event.kill pid sig] := by
  intro p s hm
  simp at hm
  omega

theorem PosKills_other (e : Event) (h : ∀ pid sig, e ≠ Event.kill pid sig) : PosKills [e] := by
  intro p s hm
  simp at hm
  exact absurd hm.symm (h p s)

theorem PosKills_emit (e : Event) (st : St) (hst : PosKills st.trace) (he : PosKills [e]) :
    PosKills (emit e st).trace := by
  simp only [emit]
  exact (PosKills_append _ _).mpr ⟨hst, he⟩

theorem PosKills_pid_live (pid : Int) (st : St) (hst : PosKills st.trace) :
    PosKills (pid_live pid st).2.trace := by
  rw [pid_live_trace]
  refine (PosKills_append _ _).mpr ⟨hst, ?_⟩
  split
  · exact PosKills_kill _ _ (by assumption)
  · exact PosKills_nil

theorem PosKills_sleep (env : Env) (st : St) (hst : PosKills st.trace) :
    PosKills (sleep env st).trace := by
  simp only [sleep]
  exact (PosKills_append _ _).mpr ⟨hst, PosKills_other _ (by intro p s; simp)⟩

theorem PosKills_printf (s : List Char) (st : St) (hst : PosKills st.trace) :
    PosKills (printf s st).trace := by
  simpa [printf] using hst

theorem PosKills_unlink_pid (st : St) (hst : PosKills st.trace) :
    PosKills (unlink_pid st).trace := by
  simp only [unlink_pid]
  exact (PosKills_append _ _).mpr ⟨hst, PosKills_other _ (by intro p s; simp)⟩

theorem PosKills_stop_daemon_loop (env : Env) (pid : Int) (hpid : 0 < pid) (n : Nat) :
    ∀ st : St, PosKills st.trace → PosKills (stop_daemon_loop env pid n st).2.trace := by
  induction n with
  | zero => intro st hst; simpa [stop_daemon_loop] using hst
  | succ n ih =>
    intro st hst
    have h1 : PosKills (is_process_running pid (sleep env st)).2.trace := by
      simp only [is_process_running]
      exact PosKills_emit _ _ (PosKills_sleep env st hst) (PosKills_kill _ _ hpid)
    simp only [stop_daemon_loop]
    split
    · exact PosKills_unlink_pid _ (PosKills_printf _ _ h1)
    · exact ih _ h1

theorem PosKills_run_daemon_loop (env : Env) (n : Nat) :
    ∀ st : St, PosKills st.trace → PosKills (run_daemon_loop env n st).2.trace := by
  induction n with
  | zero => intro st hst; simpa [run_daemon_loop, printf] using hst
  | succ n ih =>
    intro st hst
    have h1 : PosKills (pid_live (read_pid (sleep env st).sys) (sleep env st)).2.trace :=
      PosKills_pid_live _ _ (PosKills_sleep env st hst)
    simp only [run_daemon_loop]
    split
    · exact PosKills_printf _ _ h1
    · exact ih _ h1

theorem PosKills_fork (env : Env) (st : St) (hst : PosKills st.trace) :
    PosKills (fork env st).2.trace := by
  simp only [fork]
  exact (PosKills_append _ _).mpr ⟨hst, PosKills_other _ (by intro p s; simp)⟩

theorem PosKills_write_pid (pid : Int) (st : St) (hst : PosKills st.trace) :
    PosKills (write_pid pid st).trace := by
  simp only [write_pid]
  split
  · exact (PosKills_append _ _).mpr ⟨hst, PosKills_other _ (by intro p s; simp)⟩
  · exact PosKills_emit _ _ hst (PosKills_other _ (by intro p s; simp))

theorem PosKills_run_daemon_child (env : Env) (cmd : List Char) (st : St)
    (hst : PosKills st.trace) : PosKills (run_daemon_child env cmd st).2.trace := by
  have e : ∀ (ev : Event) (s : St), (∀ pid sig, ev ≠ Event.kill pid sig) →
      PosKills s.trace → PosKills (emit ev s).trace :=
    fun ev s hev hs => PosKills_emit ev s hs (PosKills_other ev hev)
  simp only [run_daemon_child]
  split
  · exact e _ _ (by intro p s; simp) (e _ _ (by intro p s; simp) (e _ _ (by intro p s; simp) hst))
  · have h2 := e Event.open_log _ (by intro p s; simp)
      (e Event.close_all _ (by intro p s; simp) (e Event.chdir st (by intro p s; simp) hst))
    have h3 := e (Event.dup2 2) _ (by intro p s; simp) (e (Event.dup2 1) _ (by intro p s; simp) h2)
    have h4 : PosKills (if (emit (Event.dup2 2) (emit (Event.dup2 1) (emit Event.open_log
        (emit Event.close_all (emit Event.chdir st))))).sys.nullOpenable = true
        then emit (Event.dup2 0) (emit Event.open_null (emit (Event.dup2 2) (emit (Event.dup2 1)
          (emit Event.open_log (emit Event.close_all (emit Event.chdir st))))))
        else emit Event.open_null (emit (Event.dup2 2) (emit (Event.dup2 1)
          (emit Event.open_log (emit Event.close_all (emit Event.chdir st)))))).trace := by
      split
      · exact e (Event.dup2 0) _ (by intro p s; simp) (e Event.open_null _ (by intro p s; simp) h3)
      · exact e Event.open_null _ (by intro p s; simp) h3
    have h6 := e (Event.execl cmd) _ (by intro p s; simp) (PosKills_write_pid env.selfPid _ h4)
    split <;> exact h6

/-- C10: in `check_status`, `stop_daemon`, `run_daemon` (whichever process of
the forks is followed) and `set_config`, started on any system state, so on
any content of the PID file, every `kill` call (signal 0, SIGINT or SIGKILL) is
made with a strictly positive pid. -/
theorem signals_have_positive_pid (env : Env) (sys : Sys) (argv : List (List Char)) :
    PosKills (check_status (St.init sys)).2.trace ∧
    PosKills (stop_daemon env (St.init sys)).2.trace ∧
    PosKills (run_daemon env (St.init sys)).2.trace ∧
    PosKills (set_config argv (St.init sys)).2.trace := by
  have h0 : PosKills (St.init sys).trace := by simpa [St.init] using PosKills_nil
  have hl := PosKills_pid_live (read_pid sys) (St.init sys) h0
  have hsys : (St.init sys).sys = sys := rfl
  refine ⟨?_, ?_, ?_, ?_⟩
  · simp only [check_status, hsys]
    split <;> exact PosKills_printf _ _ hl
  · simp only [stop_daemon, hsys]
    split
    · exact PosKills_printf _ _ hl
    · rename_i hlive
      have hpos : 0 < read_pid sys := by
        have := (pid_live_fst (read_pid sys) (St.init sys)).mp (by simpa using hlive)
        exact this.1
      have h1 := PosKills_emit _ _ hl (PosKills_kill (read_pid sys) SIGINT hpos)
      have h2 := PosKills_stop_daemon_loop env (read_pid sys) hpos 10 _ h1
      split
      · rename_i code st2 heq
        rw [heq] at h2
        exact h2
      · rename_i st2 heq
        rw [heq] at h2
        exact PosKills_unlink_pid _ (PosKills_printf _ _ (PosKills_sleep env _
          (PosKills_emit _ _ h2 (PosKills_kill (read_pid sys) SIGKILL hpos))))
  · simp only [run_daemon, hsys]
    split
    · exact PosKills_printf _ _ hl
    · split
      · exact PosKills_printf _ _ hl
      · split
        · exact PosKills_printf _ _ hl
        · have hf1 := PosKills_fork env _ hl
          split
          · exact PosKills_emit _ _ hf1 (PosKills_other _ (by intro p s; simp))
          · split
            · exact PosKills_run_daemon_loop env 10 _ hf1
            · have hf2 := PosKills_fork env _
                (PosKills_emit Event.setsid _ hf1 (PosKills_other _ (by intro p s; simp)))
              split
              · exact hf2
              · split
                · exact hf2
                · exact PosKills_run_daemon_child env _ _ hf2
  · simp only [set_config, hsys]
    split
    · exact PosKills_printf _ _ hl
    · have h1 := PosKills_emit Event.fopen_cnf_w _ hl (PosKills_other _ (by intro p s; simp))
      split
      · exact PosKills_emit _ _ h1 (PosKills_other _ (by intro p s; simp))
      · exact PosKills_printf _ _ (by simpa using h1)

/-! ## Writing and reading the config file -/

theorem set_config_args_eq_spec (words : List (List Char)) :
    set_config_args words = spec_join_words words := by
  induction words with
  | nil => rfl
  | cons w ws ih =>
    cases ws with
    | nil => simp [set_config_args, spec_join_words, List.intercalate]
    | cons w2 ws =>
      simp only [set_config_args, ih]
      simp [spec_join_words, List.intercalate, List.intersperse]

theorem spec_join_words_no_nul (words : List (List Char)) (h : ∀ w ∈ words, NUL ∉ w) :
    NUL ∉ spec_join_words words := by
  rw [← set_config_args_eq_spec]
  induction words with
  | nil => simp [set_config_args]
  | cons w ws ih =>
    cases ws with
    | nil => simpa [set_config_args] using h w (by simp)
    | cons w2 ws =>
      have hw := h w (by simp)
      have hrest := ih (fun x hx => h x (List.mem_cons_of_mem _ hx))
      simp only [set_config_args, List.mem_append, not_or]
      refine ⟨⟨hw, ?_⟩, hrest⟩
      decide

theorem cstr_of_no_nul (buf : List Char) (h : NUL ∉ buf) : cstr buf = buf := by
  unfold cstr
  rw [List.takeWhile_eq_self_iff]
  intro c hc
  have : c ≠ NUL := fun e => h (e ▸ hc)
  simpa using this

theorem fgets_read_append (n : Nat) : ∀ fp : List Char,
    (fgets_read n fp).1 ++ (fgets_read n fp).2 = fp := by
  induction n with
  | zero => intro fp; simp [fgets_read]
  | succ n ih =>
    intro fp
    cases fp with
    | nil => simp [fgets_read]
    | cons c fp =>
      simp only [fgets_read]
      split
      · simp
      · simp [ih fp]

theorem fgets_read_rest_length (n : Nat) (c : Char) (fp : List Char) :
    (fgets_read (n + 1) (c :: fp)).2.length ≤ fp.length := by
  simp only [fgets_read]
  split
  · simp
  · have h := congrArg List.length (fgets_read_append n fp)
    simp only [List.length_append] at h
    simp only
    omega

theorem get_config_loop_prints (fuel : Nat) : ∀ (fp : List Char) (st : St),
    NUL ∉ fp → fp.length < fuel → get_config_loop fuel fp st = some (printf fp st) := by
  induction fuel with
  | zero => intro fp st _ hlen; omega
  | succ fuel ih =>
    intro fp st hnul hlen
    cases fp with
    | nil => simp [get_config_loop, fgets, printf]
    | cons c fp =>
      have happ := fgets_read_append 1023 (c :: fp)
      have hrest : (fgets_read 1023 (c :: fp)).2.length ≤ fp.length :=
        fgets_read_rest_length 1022 c fp
      have hn1 : NUL ∉ (fgets_read 1023 (c :: fp)).1 := by
        intro hm; apply hnul; rw [← happ]; exact List.mem_append_left _ hm
      have hn2 : NUL ∉ (fgets_read 1023 (c :: fp)).2 := by
        intro hm; apply hnul; rw [← happ]; exact List.mem_append_right _ hm
      have hlen2 : (fgets_read 1023 (c :: fp)).2.length < fuel := by
        simp only [List.length_cons] at hlen
        omega
      simp only [get_config_loop, fgets, MAX_CMD_LEN]
      rw [ih _ _ hn2 hlen2, cstr_of_no_nul _ hn1]
      simp only [printf, List.append_assoc, happ]

theorem set_config_success (argv : List (List Char)) (sys : Sys)
    (hnot : ¬ (0 < read_pid sys ∧ sys.alive (read_pid sys) = true))
    (hw : sys.cnfWritable = true) :
    (set_config argv (St.init sys)).1 = 0 ∧
    (set_config argv (St.init sys)).2.sys =
      { sys with cnfFile := some (spec_join_words (argv.drop 2) ++ ['\n']) } := by
  have hl : ¬ (pid_live (read_pid sys) (St.init sys)).1 = true :=
    fun hh => hnot ((pid_live_fst _ _).mp hh)
  have hs := pid_live_sys (read_pid sys) (St.init sys)
  simp only [St.init] at hl hs
  simp [set_config, St.init, hl, hs, hw, emit, printf, set_config_args_eq_spec]

theorem get_config_of_no_nul (sys : Sys) (fp : List Char) (hc : sys.cnfFile = some fp)
    (hnul : NUL ∉ fp) :
    get_config (St.init sys) = some (0, printf fp (St.init sys)) := by
  simp only [get_config, St.init, hc]
  rw [get_config_loop_prints _ _ _ hnul (by omega)]

/-- C1: for every non-empty list of words (C strings, so without NUL) and
every previous content of the config file, when no live daemon is recorded and
the config file can be opened for writing, `set_config` returns 0, and
`get_config` run right after it returns 0 and prints exactly the words joined
by single spaces followed by one newline. -/
theorem setcnf_then_getcnf (a0 a1 : List Char) (words : List (List Char)) (sys : Sys)
    (_hne : words ≠ []) (hstr : ∀ w ∈ words, NUL ∉ w)
    (hnot : ¬ (0 < read_pid sys ∧ sys.alive (read_pid sys) = true))
    (hw : sys.cnfWritable = true) :
    (set_config (a0 :: a1 :: words) (St.init sys)).1 = 0 ∧
    ∃ st : St,
      get_config (St.init (set_config (a0 :: a1 :: words) (St.init sys)).2.sys) = some (0, st) ∧
      st.out = spec_join_words words ++ ['\n'] := by
  have hset := set_config_success (a0 :: a1 :: words) sys hnot hw
  have hnul : NUL ∉ spec_join_words words ++ ['\n'] := by
    simp only [List.mem_append, not_or]
    exact ⟨spec_join_words_no_nul words hstr, by decide⟩
  refine ⟨hset.1, _, get_config_of_no_nul _ (spec_join_words words ++ ['\n']) ?_ hnul, ?_⟩
  · rw [hset.2]; rfl
  · simp [printf, St.init]

/-- An instance of C1: `setcnf a b c` followed by `getcnf`, whose output is "a b c" and a
newline. -/
theorem setcnf_then_getcnf_witness :
    ((set_config ["daemonsync".toList, "setcnf".toList, "a".toList, "b".toList, "c".toList]
      (St.init sysFresh)).1 = 0 ∧
    ∃ st : St,
      get_config (St.init (set_config
        ["daemonsync".toList, "setcnf".toList, "a".toList, "b".toList, "c".toList]
        (St.init sysFresh)).2.sys) = some (0, st) ∧
      st.out = spec_join_words ["a".toList, "b".toList, "c".toList] ++ ['\n']) ∧
    spec_join_words ["a".toList, "b".toList, "c".toList] ++ ['\n'] = "a b c\n".toList :=
  ⟨setcnf_then_getcnf _ _ ["a".toList, "b".toList, "c".toList] sysFresh (by decide) (by decide)
    (by decide) (by decide), by decide⟩

/-! ## `run_daemon` and the config file -/

/-- C3, as stated, fails: with no live daemon recorded and a config file that
is empty after trimming (a single newline, or blanks and a newline),
`run_daemon` forks; the caller returns 0, and the daemon process writes the
PID file and executes the empty command line. -/
theorem run_daemon_blank_config_forks :
    ¬ (0 < read_pid sysNewlineCnf ∧ sysNewlineCnf.alive (read_pid sysNewlineCnf) = true) ∧
    sysNewlineCnf.cnfFile = some ['\n'] ∧
    Event.fork ∈ (run_daemon envIdle (St.init sysNewlineCnf)).2.trace ∧
    (run_daemon envIdle (St.init sysNewlineCnf)).1 = Outcome.ret 0 ∧
    (run_daemon envDaemon (St.init sysNewlineCnf)).1 = Outcome.exec [] ∧
    (run_daemon envDaemon (St.init sysNewlineCnf)).2.sys.pidFile = some "4243".toList ∧
    ¬ (0 < read_pid sysBlankCnf ∧ sysBlankCnf.alive (read_pid sysBlankCnf) = true) ∧
    sysBlankCnf.cnfFile = some [' ', ' ', '\n'] ∧
    Event.fork ∈ (run_daemon envIdle (St.init sysBlankCnf)).2.trace ∧
    (run_daemon envIdle (St.init sysBlankCnf)).1 = Outcome.ret 0 ∧
    (run_daemon envDaemon (St.init sysBlankCnf)).1 = Outcome.exec [' ', ' '] ∧
    (run_daemon envDaemon (St.init sysBlankCnf)).2.sys.pidFile = some "4243".toList := by
  decide

/-- C3, amended: when no live daemon is recorded and the config file cannot be
opened for reading (missing or unreadable) or has zero bytes, `run_daemon`
returns 1 after printing an error line, and does not reach the Daemonizer: it
makes no `fork`, never opens the PID file for writing, and leaves the system
as it was. -/
theorem run_daemon_requires_config (env : Env) (sys : Sys)
    (hnot : ¬ (0 < read_pid sys ∧ sys.alive (read_pid sys) = true))
    (hcnf : sys.cnfFile = none ∨ sys.cnfFile = some []) :
    (run_daemon env (St.init sys)).1 = Outcome.ret 1 ∧
    ((run_daemon env (St.init sys)).2.out = "Error: No configuration file found\n".toList ∨
     (run_daemon env (St.init sys)).2.out = "Error: Empty configuration file\n".toList) ∧
    Event.fork ∉ (run_daemon env (St.init sys)).2.trace ∧
    Event.fopen_pid_w ∉ (run_daemon env (St.init sys)).2.trace ∧
    (run_daemon env (St.init sys)).2.sys = sys := by
  have hl : ¬ (pid_live (read_pid sys) (St.init sys)).1 = true :=
    fun hh => hnot ((pid_live_fst _ _).mp hh)
  have hs := pid_live_sys (read_pid sys) (St.init sys)
  have ho := pid_live_out (read_pid sys) (St.init sys)
  have ht := pid_live_trace (read_pid sys) (St.init sys)
  simp only [St.init] at hl hs ho ht
  rcases hcnf with hc | hc
  · simp only [run_daemon, St.init]
    simp [hl, hs, ho, ht, hc, printf]
  · simp only [run_daemon, St.init]
    simp [hl, hs, ho, ht, hc, printf, fgets]

/-- An instance of the amended C3: `run` with a config file of zero bytes. -/
theorem run_daemon_requires_config_witness :
    (run_daemon envIdle (St.init sysEmptyCnf)).1 = Outcome.ret 1 ∧
    ((run_daemon envIdle (St.init sysEmptyCnf)).2.out
        = "Error: No configuration file found\n".toList ∨
     (run_daemon envIdle (St.init sysEmptyCnf)).2.out
        = "Error: Empty configuration file\n".toList) ∧
    Event.fork ∉ (run_daemon envIdle (St.init sysEmptyCnf)).2.trace ∧
    Event.fopen_pid_w ∉ (run_daemon envIdle (St.init sysEmptyCnf)).2.trace ∧
    (run_daemon envIdle (St.init sysEmptyCnf)).2.sys = sysEmptyCnf :=
  run_daemon_requires_config envIdle sysEmptyCnf (by decide) (by decide)

/-! ## `read_pid` -/

theorem isdigit_not_special (c : Char) (h : isdigit c = true) :
    c ≠ '-' ∧ c ≠ '+' ∧ isspace c = false := by
  refine ⟨?_, ?_, ?_⟩
  · rintro rfl; revert h; decide
  · rintro rfl; revert h; decide
  · cases hs : isspace c with
    | false => rfl
    | true =>
      exfalso
      simp only [isspace, Bool.or_eq_true, decide_eq_true_eq] at hs
      rcases hs with ((((rfl | rfl) | rfl) | rfl) | rfl) | rfl <;> revert h <;> decide

theorem dropWhile_isspace_append (ws rest : List Char) (hws : ∀ c ∈ ws, isspace c = true)
    (hrest : ∀ c ∈ rest.head?, isspace c = false) :
    (ws ++ rest).dropWhile isspace = rest := by
  induction ws with
  | nil =>
    cases rest with
    | nil => rfl
    | cons c r =>
      have := hrest c (by simp)
      simp [List.dropWhile, this]
  | cons w ws ih =>
    have hw := hws w (by simp)
    have e := ih (fun c hc => hws c (List.mem_cons_of_mem _ hc))
    simp [List.dropWhile, hw, e]

theorem takeWhile_isdigit_append (ds tl : List Char) (hds : ∀ c ∈ ds, isdigit c = true)
    (htl : ∀ c ∈ tl.head?, isdigit c = false) :
    (ds ++ tl).takeWhile isdigit = ds := by
  induction ds with
  | nil =>
    cases tl with
    | nil => rfl
    | cons c r =>
      have := htl c (by simp)
      simp [List.takeWhile, this]
  | cons d ds ih =>
    have hd := hds d (by simp)
    have e := ih (fun c hc => hds c (List.mem_cons_of_mem _ hc))
    simp [List.takeWhile, hd, e]

theorem toInt32_clampLong_of_small (x : Int) (h1 : -(2 ^ 31) ≤ x) (h2 : x < 2 ^ 31) :
    toInt32 (clampLong x) = x := by
  have e31 : (2 : Int) ^ 31 = 2147483648 := by norm_num
  have e32 : (2 : Int) ^ 32 = 4294967296 := by norm_num
  have e63 : (2 : Int) ^ 63 = 9223372036854775808 := by norm_num
  rw [e31] at h1 h2
  unfold toInt32 clampLong
  rw [e31, e32, e63]
  split
  · omega
  · split
    · omega
    · omega

theorem scan_digits_of_digits (neg : Bool) (ds tl : List Char) (hne : ds ≠ [])
    (hds : ∀ c ∈ ds, isdigit c = true) (htl : ∀ c ∈ tl.head?, isdigit c = false) :
    scan_digits neg (ds ++ tl) =
      some (toInt32 (clampLong (if neg then -((decVal ds : Nat) : Int) else (decVal ds : Nat)))) := by
  unfold scan_digits
  rw [takeWhile_isdigit_append ds tl hds htl]
  cases ds with
  | nil => exact absurd rfl hne
  | cons d ds => rfl

theorem scan_digits_of_no_digit (neg : Bool) (tl : List Char)
    (htl : ∀ c ∈ tl.head?, isdigit c = false) : scan_digits neg tl = none := by
  unfold scan_digits
  have := takeWhile_isdigit_append [] tl (by simp) htl
  simp only [List.nil_append] at this
  rw [this]

/-- C8, as stated, fails: a PID file holding a number followed by other
characters ("123abc") is not reported as absent; `read_pid` returns the
leading number, a positive pid. -/
theorem read_pid_number_then_text :
    sysPidThenText.pidFile = some "123abc".toList ∧ read_pid sysPidThenText = 123 := by
  decide

theorem fscanf_d_unsigned (ws ds tl : List Char) (hws : ∀ c ∈ ws, isspace c = true)
    (hne : ds ≠ []) (hds : ∀ c ∈ ds, isdigit c = true) :
    fscanf_d (ws ++ (ds ++ tl)) = scan_digits false (ds ++ tl) := by
  cases ds with
  | nil => exact absurd rfl hne
  | cons d ds =>
    have hd := isdigit_not_special d (hds d (by simp))
    unfold fscanf_d
    rw [dropWhile_isspace_append ws _ hws (by intro c hc; simp at hc; subst hc; exact hd.2.2)]
    simp [hd.1, hd.2.1]

theorem fscanf_d_signed (ws rest : List Char) (hws : ∀ c ∈ ws, isspace c = true) :
    fscanf_d (ws ++ ('+' :: rest)) = scan_digits false rest ∧
    fscanf_d (ws ++ ('-' :: rest)) = scan_digits true rest := by
  constructor
  · unfold fscanf_d
    rw [dropWhile_isspace_append ws _ hws (by intro c hc; simp at hc; subst hc; decide)]
    simp
  · unfold fscanf_d
    rw [dropWhile_isspace_append ws _ hws (by intro c hc; simp at hc; subst hc; decide)]
    simp

theorem fscanf_d_no_number (ws tl : List Char) (hws : ∀ c ∈ ws, isspace c = true)
    (htl : ∀ c ∈ tl.head?, isdigit c = false)
    (hhead : ∀ c ∈ tl.head?, isspace c = false ∧ c ≠ '+' ∧ c ≠ '-') :
    fscanf_d (ws ++ tl) = none := by
  unfold fscanf_d
  rw [dropWhile_isspace_append ws _ hws (fun c hc => (hhead c hc).1)]
  cases tl with
  | nil => rfl
  | cons c r =>
    have h := hhead c (by simp)
    simp only [h.2.1, h.2.2, if_false]
    exact scan_digits_of_no_digit false (c :: r) htl

/-- C8, amended: `read_pid` is a total function.  It returns -1 when the PID
file cannot be opened, and when its content, after leading white space, does
not start with a decimal integer (it is empty, starts with another character,
or has a sign that no digit follows).  When the content starts, after optional
white space and an optional sign, with decimal digits of value `n < 2^31`, it
returns `n` (or `-n` after a minus sign) whatever characters follow the
digits: a positive pid for "123", " 123", "+123", "123\n" and "123abc" alike,
and a value that is not positive, which every caller treats as no recorded
pid, for zero and for negative numbers. -/
theorem read_pid_spec (sys : Sys) (ws ds tl : List Char)
    (hws : ∀ c ∈ ws, isspace c = true) (hne : ds ≠ [])
    (hds : ∀ c ∈ ds, isdigit c = true) (htl : ∀ c ∈ tl.head?, isdigit c = false)
    (hrange : decVal ds < 2 ^ 31) :
    (sys.pidFile = none → read_pid sys = -1) ∧
    (sys.pidFile = some (ws ++ (ds ++ tl)) → read_pid sys = decVal ds) ∧
    (sys.pidFile = some (ws ++ ('+' :: (ds ++ tl))) → read_pid sys = decVal ds) ∧
    (sys.pidFile = some (ws ++ ('-' :: (ds ++ tl))) → read_pid sys = -(decVal ds : Int)) ∧
    (sys.pidFile = some (ws ++ tl) →
      (∀ c ∈ tl.head?, isspace c = false ∧ c ≠ '+' ∧ c ≠ '-') → read_pid sys = -1) ∧
    (sys.pidFile = some (ws ++ ('+' :: tl)) → read_pid sys = -1) ∧
    (sys.pidFile = some (ws ++ ('-' :: tl)) → read_pid sys = -1) := by
  have hr : ((decVal ds : Nat) : Int) < 2 ^ 31 := by exact_mod_cast hrange
  have hnn : (0 : Int) ≤ (decVal ds : Nat) := Int.ofNat_nonneg _
  have e31 : (2 : Int) ^ 31 = 2147483648 := by norm_num
  have hpos : toInt32 (clampLong ((decVal ds : Nat) : Int)) = (decVal ds : Nat) :=
    toInt32_clampLong_of_small _ (by rw [e31]; omega) hr
  have hneg : toInt32 (clampLong (-((decVal ds : Nat) : Int))) = -((decVal ds : Nat) : Int) :=
    toInt32_clampLong_of_small _ (by rw [e31] at hr ⊢; omega) (by rw [e31]; omega)
  refine ⟨?_, ?_, ?_, ?_, ?_, ?_, ?_⟩
  · intro h; simp [read_pid, h]
  · intro h
    simp only [read_pid, h, fscanf_d_unsigned ws ds tl hws hne hds,
      scan_digits_of_digits false ds tl hne hds htl]
    simpa using hpos
  · intro h
    simp only [read_pid, h, (fscanf_d_signed ws (ds ++ tl) hws).1,
      scan_digits_of_digits false ds tl hne hds htl]
    simpa using hpos
  · intro h
    simp only [read_pid, h, (fscanf_d_signed ws (ds ++ tl) hws).2,
      scan_digits_of_digits true ds tl hne hds htl]
    simpa using hneg
  · intro h hhead
    simp only [read_pid, h, fscanf_d_no_number ws tl hws htl hhead]
  · intro h
    simp only [read_pid, h, (fscanf_d_signed ws tl hws).1, scan_digits_of_no_digit false tl htl]
  · intro h
    simp only [read_pid, h, (fscanf_d_signed ws tl hws).2, scan_digits_of_no_digit true tl htl]

/-- An instance of the amended C8: the PID file "123abc" gives the pid 123. -/
theorem read_pid_spec_witness :
    read_pid sysPidThenText = (decVal "123".toList : Nat) ∧ decVal "123".toList = 123 :=
  ⟨(read_pid_spec sysPidThenText [] "123".toList "abc".toList (by decide) (by decide) (by decide)
      (by decide) (by decide)).2.1 (by decide), by decide⟩

/-! ## The command line of the daemon -/

theorem take_length_takeWhile (p : Char → Bool) (l : List Char) :
    l.take (l.takeWhile p).length = l.takeWhile p := by
  induction l with
  | nil => rfl
  | cons c l ih =>
    cases hp : p c with
    | false => simp [List.takeWhile, hp]
    | true => simp [List.takeWhile, hp, ih]

theorem fgets_read_until_newline (n : Nat) : ∀ fp : List Char,
    (fgets_read n fp).1.takeWhile (fun c => c != '\n') =
      (fp.take n).takeWhile (fun c => c != '\n') := by
  induction n with
  | zero => intro fp; simp [fgets_read]
  | succ n ih =>
    intro fp
    cases fp with
    | nil => simp [fgets_read]
    | cons c fp =>
      simp only [fgets_read]
      split
      · rename_i h; subst h; simp [List.takeWhile]
      · rename_i h
        have hc : (c != '\n') = true := by simpa using h
        simp [List.takeWhile, hc, ih fp]

theorem take_append_newline (line : List Char) : ∀ n : Nat,
    ((line ++ ['\n']).take n).takeWhile (fun c => c != '\n') =
      (line.take n).takeWhile (fun c => c != '\n') := by
  induction line with
  | nil => intro n; cases n <;> simp [List.takeWhile]
  | cons c line ih =>
    intro n
    cases n with
    | zero => simp
    | succ n =>
      cases hc : (c != '\n') with
      | false => simp [List.takeWhile, hc]
      | true => simp [List.takeWhile, hc, ih n]

theorem fgets_of_ne_nil (size : Nat) (fp : List Char) (h : fp ≠ []) :
    fgets size fp = some (fgets_read (size - 1) fp) := by
  cases fp with
  | nil => exact absurd rfl h
  | cons c fp => rfl

/-- The command line kept by `run_daemon` when the config file holds `line`
followed by a newline and `line` has no NUL. -/
theorem run_daemon_cmd_of_config (line : List Char) (hnul : NUL ∉ line) :
    (cstr (fgets_read (MAX_CMD_LEN - 1) (line ++ ['\n'])).1).take
        (strcspn (fgets_read (MAX_CMD_LEN - 1) (line ++ ['\n'])).1 ['\n']) = cmd_of_line line := by
  have happ := fgets_read_append (MAX_CMD_LEN - 1) (line ++ ['\n'])
  have hn : NUL ∉ (fgets_read (MAX_CMD_LEN - 1) (line ++ ['\n'])).1 := by
    intro hm
    have : NUL ∈ line ++ ['\n'] := by rw [← happ]; exact List.mem_append_left _ hm
    simp only [List.mem_append, List.mem_singleton] at this
    rcases this with h | h
    · exact hnul h
    · revert h; decide
  have hp : (fun c : Char => !(['\n'].contains c)) = (fun c : Char => c != '\n') := by
    funext c
    cases h : (c == '\n') <;> simp [List.contains, List.elem, bne, h]
  unfold strcspn
  rw [cstr_of_no_nul _ hn, take_length_takeWhile, hp, fgets_read_until_newline,
    take_append_newline]
  rfl

theorem pid_live_eq (pid : Int) (st : St) :
    pid_live pid st =
      (decide (0 < pid) && st.sys.alive pid,
       { st with trace := st.trace ++ (if 0 < pid then [Event.kill pid 0] else []) }) := by
  by_cases h : 0 < pid
  · simp [pid_live_pos, h, emit]
  · simp [pid_live_nonpos, h]

theorem not_live_iff (sys : Sys) :
    ¬ (0 < read_pid sys ∧ sys.alive (read_pid sys) = true) ↔
      (decide (0 < read_pid sys) && sys.alive (read_pid sys)) = false := by
  simp

theorem run_daemon_child_spec (env : Env) (cmd : List Char) (st : St)
    (hlog : st.sys.logOpenable = true) :
    (run_daemon_child env cmd st).1 =
      (if env.execlOk then Outcome.exec cmd else Outcome.exited 1) ∧
    (∀ c, Event.execl c ∈ (run_daemon_child env cmd st).2.trace ↔
      (Event.execl c ∈ st.trace ∨ c = cmd)) := by
  unfold run_daemon_child
  cases hn : st.sys.nullOpenable <;> cases hp : st.sys.pidWritable <;>
    cases he : env.execlOk <;> simp [emit, write_pid, hn, hp, hlog]

/-- What the daemon process of `run_daemon` does when the config file holds
`line` followed by a newline. -/
theorem run_daemon_as_daemon (env : Env) (sys : Sys) (line : List Char)
    (hcnf : sys.cnfFile = some (line ++ ['\n'])) (hnul : NUL ∉ line)
    (hnot : ¬ (0 < read_pid sys ∧ sys.alive (read_pid sys) = true))
    (hf1 : env.forkRet 0 = 0) (hf2 : env.forkRet 1 = 0) (hlog : sys.logOpenable = true) :
    (run_daemon env (St.init sys)).1 =
      (if env.execlOk then Outcome.exec (cmd_of_line line) else Outcome.exited 1) ∧
    (∀ c, Event.execl c ∈ (run_daemon env (St.init sys)).2.trace ↔ c = cmd_of_line line) := by
  have hl := (not_live_iff sys).mp hnot
  have hfg := fgets_of_ne_nil MAX_CMD_LEN (line ++ ['\n']) (by simp)
  have hcmd := run_daemon_cmd_of_config line hnul
  rcases hfr : fgets_read (MAX_CMD_LEN - 1) (line ++ ['\n']) with ⟨buf, rest⟩
  rw [hfr] at hfg hcmd
  simp only at hcmd
  have hchild := run_daemon_child_spec env (cmd_of_line line)
    { sys := sys, clock := 0, forks := 2, out := [],
      trace := (if 0 < read_pid sys then [Event.kill (read_pid sys) 0] else [])
        ++ [Event.fork, Event.setsid, Event.fork] } hlog
  have heq : run_daemon env (St.init sys) = run_daemon_child env (cmd_of_line line)
      { sys := sys, clock := 0, forks := 2, out := [],
        trace := (if 0 < read_pid sys then [Event.kill (read_pid sys) 0] else [])
          ++ [Event.fork, Event.setsid, Event.fork] } := by
    simp only [run_daemon, St.init, pid_live_eq, hl]
    simp only [hcnf, hfg, fork, hf1, hcmd]
    simp [emit, hf2]
  rw [heq]
  refine ⟨hchild.1, fun c => ?_⟩
  rw [hchild.2 c]
  constructor
  · rintro (h | h)
    · simp only [List.mem_append, List.mem_cons, List.mem_singleton] at h
      rcases h with h | h
      · split at h <;> simp at h
      · simp at h
    · exact h
  · intro h; exact Or.inr h

theorem set_config_cnf_of_ok (argv : List (List Char)) (sys : Sys)
    (h : (set_config argv (St.init sys)).1 = 0) :
    (set_config argv (St.init sys)).2.sys.cnfFile =
      some (spec_join_words (argv.drop 2) ++ ['\n']) := by
  simp only [set_config, St.init, pid_live_eq] at h ⊢
  cases hl : (decide (0 < read_pid sys) && sys.alive (read_pid sys)) with
  | true => simp [hl] at h
  | false =>
    cases hw : sys.cnfWritable with
    | false => simp [hl, hw, emit] at h
    | true => simp [hl, hw, emit, printf, set_config_args_eq_spec]

/-- C9, as stated, fails: the daemon does not get every configured command
line.  A line of 1024 characters is cut to its first 1023 (`MAX_CMD_LEN - 1`)
characters, and a line with a newline inside is cut at that newline. -/
theorem run_daemon_command_cut :
    (set_config ["daemonsync".toList, "setcnf".toList, longWord] (St.init sysFresh)).1 = 0 ∧
    (run_daemon envDaemon (St.init
      (set_config ["daemonsync".toList, "setcnf".toList, longWord] (St.init sysFresh)).2.sys)).1
      = Outcome.exec (List.replicate 1023 'a') ∧
    List.replicate 1023 'a' ≠ spec_join_words [longWord] ∧
    (set_config ["daemonsync".toList, "setcnf".toList, twoLineWord] (St.init sysFresh)).1 = 0 ∧
    (run_daemon envDaemon (St.init
      (set_config ["daemonsync".toList, "setcnf".toList, twoLineWord] (St.init sysFresh)).2.sys)).1
      = Outcome.exec ['a'] ∧
    ['a'] ≠ spec_join_words [twoLineWord] := by
  have hnot : ¬ (0 < read_pid sysFresh ∧ sysFresh.alive (read_pid sysFresh) = true) := by decide
  have hset := set_config_success ["daemonsync".toList, "setcnf".toList, longWord] sysFresh hnot rfl
  have hjoin : spec_join_words [longWord] = longWord := by
    simp [spec_join_words, List.intercalate]
  have hnul : NUL ∉ longWord := by
    intro hm
    have := List.eq_of_mem_replicate hm
    revert this; decide
  have hcut : cmd_of_line longWord = List.replicate 1023 'a' := by
    have hp : (('a' : Char) != '\n') = true := by decide
    have hmin : min (MAX_CMD_LEN - 1) 1024 = 1023 := by decide
    unfold cmd_of_line longWord
    rw [List.take_replicate, List.takeWhile_replicate, hmin, hp, if_pos rfl]
  have hrun := run_daemon_as_daemon envDaemon
    (set_config ["daemonsync".toList, "setcnf".toList, longWord] (St.init sysFresh)).2.sys
    longWord (by rw [hset.2]; simp [hjoin]) hnul (by rw [hset.2]; exact hnot) rfl rfl
    (by rw [hset.2]; rfl)
  refine ⟨hset.1, ?_, ?_, by decide, by decide, by decide⟩
  · rw [hrun.1, hcut]; rfl
  · rw [hjoin]
    intro h
    have hlen := congrArg List.length h
    unfold longWord at hlen
    rw [List.length_replicate, List.length_replicate] at hlen
    exact absurd hlen (by decide)

/-- C9, amended: for every non-empty list of words (C strings), after a
successful `set_config` of those words and a `run_daemon` with no live daemon
recorded, the one command line the daemon process passes to `/bin/sh -c` is
the configured line (the words joined by single spaces) cut to its first 1023
characters (`MAX_CMD_LEN - 1`) and at its first newline; it is exactly the
configured line whenever that line has at most 1023 characters and no
newline. -/
theorem run_daemon_command (env : Env) (a0 a1 : List Char) (words : List (List Char))
    (sys1 sys2 : Sys) (_hne : words ≠ []) (hstr : ∀ w ∈ words, NUL ∉ w)
    (hset : (set_config (a0 :: a1 :: words) (St.init sys1)).1 = 0)
    (hcnf : sys2.cnfFile = (set_config (a0 :: a1 :: words) (St.init sys1)).2.sys.cnfFile)
    (hnot : ¬ (0 < read_pid sys2 ∧ sys2.alive (read_pid sys2) = true))
    (hf1 : env.forkRet 0 = 0) (hf2 : env.forkRet 1 = 0) (hlog : sys2.logOpenable = true) :
    (∀ c, Event.execl c ∈ (run_daemon env (St.init sys2)).2.trace ↔
      c = cmd_of_line (spec_join_words words)) ∧
    (env.execlOk = true →
      (run_daemon env (St.init sys2)).1 = Outcome.exec (cmd_of_line (spec_join_words words))) ∧
    ((spec_join_words words).length ≤ MAX_CMD_LEN - 1 → '\n' ∉ spec_join_words words →
      cmd_of_line (spec_join_words words) = spec_join_words words) := by
  have hfile := set_config_cnf_of_ok (a0 :: a1 :: words) sys1 hset
  simp only [List.drop_succ_cons, List.drop_zero] at hfile
  have hrun := run_daemon_as_daemon env sys2 (spec_join_words words) (hcnf.trans hfile)
    (spec_join_words_no_nul words hstr) hnot hf1 hf2 hlog
  refine ⟨hrun.2, ?_, ?_⟩
  · intro hok
    rw [hrun.1, if_pos hok]
  · intro hlen hnl
    unfold cmd_of_line
    rw [List.take_of_length_le hlen, List.takeWhile_eq_self_iff]
    intro c hc
    have : c ≠ '\n' := fun e => hnl (e ▸ hc)
    simpa using this

/-- An instance of the amended C9: after `setcnf sleep 30` the daemon executes "sleep 30". -/
theorem run_daemon_command_witness :
    ((∀ c, Event.execl c ∈ (run_daemon envDaemon (St.init
        (set_config ["daemonsync".toList, "setcnf".toList, "sleep".toList, "30".toList]
          (St.init sysFresh)).2.sys)).2.trace ↔
      c = cmd_of_line (spec_join_words ["sleep".toList, "30".toList])) ∧
    (envDaemon.execlOk = true →
      (run_daemon envDaemon (St.init
        (set_config ["daemonsync".toList, "setcnf".toList, "sleep".toList, "30".toList]
          (St.init sysFresh)).2.sys)).1
        = Outcome.exec (cmd_of_line (spec_join_words ["sleep".toList, "30".toList]))) ∧
    ((spec_join_words ["sleep".toList, "30".toList]).length ≤ MAX_CMD_LEN - 1 →
      '\n' ∉ spec_join_words ["sleep".toList, "30".toList] →
      cmd_of_line (spec_join_words ["sleep".toList, "30".toList])
        = spec_join_words ["sleep".toList, "30".toList])) ∧
    cmd_of_line (spec_join_words ["sleep".toList, "30".toList]) = "sleep 30".toList :=
  ⟨run_daemon_command envDaemon "daemonsync".toList "setcnf".toList
      ["sleep".toList, "30".toList] sysFresh
      (set_config ["daemonsync".toList, "setcnf".toList, "sleep".toList, "30".toList]
        (St.init sysFresh)).2.sys
      (by decide) (by decide) (by decide) rfl (by decide) (by decide) (by decide) (by decide),
   by decide⟩

/-! ## The polling loop of `stop_daemon` -/

theorem stop_daemon_loop_all_alive (env : Env) (pid : Int) (n : Nat) : ∀ st : St,
    (∀ j, 1 ≤ j → j ≤ n → (sysAfter env j st.clock st.sys).alive pid = true) →
    stop_daemon_loop env pid n st =
      (none, { sys := sysAfter env n st.clock st.sys, clock := st.clock + n, forks := st.forks,
               out := st.out, trace := st.trace ++ stopPolls pid n }) := by
  induction n with
  | zero => intro st _; simp [stop_daemon_loop, sysAfter, stopPolls]
  | succ n ih =>
    intro st h
    have h1 : (env.tick st.clock st.sys).alive pid = true := h 1 (by omega) (by omega)
    have hrest : ∀ j, 1 ≤ j → j ≤ n →
        (sysAfter env j (st.clock + 1) (env.tick st.clock st.sys)).alive pid = true :=
      fun j hj1 hj2 => h (j + 1) (by omega) (by omega)
    simp only [stop_daemon_loop, is_process_running, sleep, emit, h1]
    rw [ih _ hrest]
    simp [sysAfter, stopPolls, Nat.add_assoc, Nat.add_comm 1 n]

theorem stop_daemon_loop_first_dead (env : Env) (pid : Int) (n : Nat) : ∀ (st : St) (k : Nat),
    1 ≤ k → k ≤ n →
    (∀ j, 1 ≤ j → j < k → (sysAfter env j st.clock st.sys).alive pid = true) →
    (sysAfter env k st.clock st.sys).alive pid = false →
    stop_daemon_loop env pid n st =
      (some 0, { sys := { sysAfter env k st.clock st.sys with pidFile := none },
                 clock := st.clock + k, forks := st.forks,
                 out := st.out ++ "stopped\n".toList,
                 trace := st.trace ++ stopPolls pid k ++ [Event.unlink_pid] }) := by
  induction n with
  | zero => intro st k h1 h2; omega
  | succ n ih =>
    intro st k hk1 hk2 halive hdead
    cases k with
    | zero => omega
    | succ k =>
      cases k with
      | zero =>
        have h1 : (env.tick st.clock st.sys).alive pid = false := hdead
        simp [stop_daemon_loop, is_process_running, sleep, emit, h1, unlink_pid, printf,
          sysAfter, stopPolls]
      | succ k =>
        have h1 : (env.tick st.clock st.sys).alive pid = true := halive 1 (by omega) (by omega)
        have hrest : ∀ j, 1 ≤ j → j < k + 1 →
            (sysAfter env j (st.clock + 1) (env.tick st.clock st.sys)).alive pid = true :=
          fun j hj1 hj2 => halive (j + 1) (by omega) (by omega)
        have hd : (sysAfter env (k + 1) (st.clock + 1) (env.tick st.clock st.sys)).alive pid
            = false := hdead
        simp only [stop_daemon_loop, is_process_running, sleep, emit, h1]
        have := ih { sys := env.tick st.clock st.sys, clock := st.clock + 1, forks := st.forks,
                     out := st.out, trace := st.trace ++ [Event.sleep] ++ [Event.kill pid 0] }
          (k + 1) (by omega) (by omega) hrest hd
        simp only [Bool.not_true, Bool.false_eq_true, if_false]
        rw [this]
        simp [sysAfter, stopPolls, Nat.add_assoc, Nat.add_comm 1 (k + 1)]

theorem mem_stopPolls (pid : Int) (k : Nat) :
    ∀ e ∈ stopPolls pid k, e = Event.sleep ∨ e = Event.kill pid 0 := by
  induction k with
  | zero => intro e he; simp [stopPolls] at he
  | succ k ih =>
    intro e he
    simp only [stopPolls, List.mem_cons] at he
    rcases he with h | h | h
    · exact Or.inl h
    · exact Or.inr h
    · exact ih e h

theorem exists_first_dead (P : Nat → Bool) (n : Nat)
    (h : ¬ ∀ k, 1 ≤ k → k ≤ n → P k = true) :
    ∃ k, 1 ≤ k ∧ k ≤ n ∧ P k = false ∧ ∀ j, 1 ≤ j → j < k → P j = true := by
  have hex : ∃ k, 1 ≤ k ∧ k ≤ n ∧ P k = false := by
    by_contra hne
    apply h
    intro k hk1 hk2
    cases hp : P k with
    | true => rfl
    | false => exact absurd ⟨k, hk1, hk2, hp⟩ hne
  classical
  refine ⟨Nat.find hex, (Nat.find_spec hex).1, (Nat.find_spec hex).2.1, (Nat.find_spec hex).2.2, ?_⟩
  intro j hj1 hj2
  have hmin := Nat.find_min hex hj2
  cases hp : P j with
  | true => rfl
  | false => exact absurd ⟨hj1, by have := (Nat.find_spec hex).2.1; omega, hp⟩ hmin

theorem stop_daemon_stopped_at (env : Env) (sys : Sys)
    (hpos : 0 < read_pid sys) (hlive : sys.alive (read_pid sys) = true) (k : Nat)
    (hk1 : 1 ≤ k) (hk2 : k ≤ 10)
    (halive : ∀ j, 1 ≤ j → j < k → (sysAfter env j 0 sys).alive (read_pid sys) = true)
    (hdead : (sysAfter env k 0 sys).alive (read_pid sys) = false) :
    stop_daemon env (St.init sys) =
      (0, { sys := { sysAfter env k 0 sys with pidFile := none }, clock := k, forks := 0,
            out := "stopped\n".toList,
            trace := [Event.kill (read_pid sys) 0, Event.kill (read_pid sys) SIGINT]
              ++ stopPolls (read_pid sys) k ++ [Event.unlink_pid] }) := by
  have hloop := stop_daemon_loop_first_dead env (read_pid sys) 10
    { sys := sys, clock := 0, forks := 0, out := [],
      trace := [Event.kill (read_pid sys) 0, Event.kill (read_pid sys) SIGINT] }
    k hk1 hk2 halive hdead
  simp only [stop_daemon, St.init, pid_live_eq, hpos, hlive, emit]
  simp only [decide_True, Bool.and_self, Bool.not_true, Bool.false_eq_true, if_false, if_true,
    List.nil_append, List.singleton_append]
  rw [hloop]
  simp

theorem stop_daemon_terminated (env : Env) (sys : Sys)
    (hpos : 0 < read_pid sys) (hlive : sys.alive (read_pid sys) = true)
    (hall : ∀ k, 1 ≤ k → k ≤ 10 → (sysAfter env k 0 sys).alive (read_pid sys) = true) :
    stop_daemon env (St.init sys) =
      (0, { sys := { env.tick 10 (sysAfter env 10 0 sys) with pidFile := none }, clock := 11,
            forks := 0, out := "terminated\n".toList,
            trace := [Event.kill (read_pid sys) 0, Event.kill (read_pid sys) SIGINT]
              ++ stopPolls (read_pid sys) 10
              ++ [Event.kill (read_pid sys) SIGKILL, Event.sleep, Event.unlink_pid] }) := by
  have hloop := stop_daemon_loop_all_alive env (read_pid sys) 10
    { sys := sys, clock := 0, forks := 0, out := [],
      trace := [Event.kill (read_pid sys) 0, Event.kill (read_pid sys) SIGINT] } hall
  simp only [stop_daemon, St.init, pid_live_eq, hpos, hlive, emit]
  simp only [decide_True, Bool.and_self, Bool.not_true, Bool.false_eq_true, if_false, if_true,
    List.nil_append, List.singleton_append]
  rw [hloop]
  simp [sleep, unlink_pid, printf]

/-- C6: when the recorded pid is positive and live at the start, whatever the
process does afterwards, `stop_daemon` returns 0 with the PID file removed,
sends SIGINT exactly once and then makes between 1 and 10 liveness probes, one
after each sleep.  If probe `k` (1 ≤ k ≤ 10) is the first to find the process
gone, it prints "stopped", its calls are the probe, SIGINT, `k` rounds of sleep
and probe, and the unlink, and no SIGKILL is sent.  SIGKILL is sent exactly
when all 10 probes found the process alive, and then "terminated" is printed
after one more sleep. -/
theorem stop_daemon_live (env : Env) (sys : Sys)
    (hpos : 0 < read_pid sys) (hlive : sys.alive (read_pid sys) = true) :
    (stop_daemon env (St.init sys)).1 = 0 ∧
    (stop_daemon env (St.init sys)).2.sys.pidFile = none ∧
    (stop_daemon env (St.init sys)).2.trace.count (Event.kill (read_pid sys) SIGINT) = 1 ∧
    (∃ k, 1 ≤ k ∧ k ≤ 10 ∧
      ((stop_daemon env (St.init sys)).2.trace =
          [Event.kill (read_pid sys) 0, Event.kill (read_pid sys) SIGINT]
            ++ stopPolls (read_pid sys) k ++ [Event.unlink_pid] ∨
       (stop_daemon env (St.init sys)).2.trace =
          [Event.kill (read_pid sys) 0, Event.kill (read_pid sys) SIGINT]
            ++ stopPolls (read_pid sys) k
            ++ [Event.kill (read_pid sys) SIGKILL, Event.sleep, Event.unlink_pid])) ∧
    (∀ k, 1 ≤ k → k ≤ 10 →
      (∀ j, 1 ≤ j → j < k → (sysAfter env j 0 sys).alive (read_pid sys) = true) →
      (sysAfter env k 0 sys).alive (read_pid sys) = false →
      (stop_daemon env (St.init sys)).2.out = "stopped\n".toList ∧
      (stop_daemon env (St.init sys)).2.trace =
        [Event.kill (read_pid sys) 0, Event.kill (read_pid sys) SIGINT]
          ++ stopPolls (read_pid sys) k ++ [Event.unlink_pid] ∧
      (∀ p, Event.kill p SIGKILL ∉ (stop_daemon env (St.init sys)).2.trace)) ∧
    (Event.kill (read_pid sys) SIGKILL ∈ (stop_daemon env (St.init sys)).2.trace ↔
      ∀ k, 1 ≤ k → k ≤ 10 → (sysAfter env k 0 sys).alive (read_pid sys) = true) ∧
    (Event.kill (read_pid sys) SIGKILL ∈ (stop_daemon env (St.init sys)).2.trace →
      (stop_daemon env (St.init sys)).2.out = "terminated\n".toList ∧
      (stop_daemon env (St.init sys)).2.trace =
        [Event.kill (read_pid sys) 0, Event.kill (read_pid sys) SIGINT]
          ++ stopPolls (read_pid sys) 10
          ++ [Event.kill (read_pid sys) SIGKILL, Event.sleep, Event.unlink_pid]) := by
  have hnoKill : ∀ (k : Nat) (p : Int) (sig : Nat), sig ≠ 0 →
      Event.kill p sig ∉ stopPolls (read_pid sys) k := by
    intro k p sig hsig hm
    rcases mem_stopPolls _ _ _ hm with h | h
    · simp at h
    · simp only [Event.kill.injEq] at h
      exact hsig h.2
  have hcount : ∀ k : Nat, (stopPolls (read_pid sys) k).count (Event.kill (read_pid sys) SIGINT)
      = 0 := fun k => List.count_eq_zero.mpr (hnoKill k _ _ (by decide))
  have e1 : ¬ (0 = SIGINT) := by decide
  have e2 : ¬ (SIGKILL = SIGINT) := by decide
  by_cases hall : ∀ k, 1 ≤ k → k ≤ 10 → (sysAfter env k 0 sys).alive (read_pid sys) = true
  · have hrun := stop_daemon_terminated env sys hpos hlive hall
    rw [hrun]
    refine ⟨rfl, rfl, ?_, ⟨10, by omega, by omega, Or.inr rfl⟩, ?_, ?_, ?_⟩
    · simp [List.count_append, hcount, List.count_cons, e1, e2]
    · intro k hk1 hk2 _ hdead
      have := hall k hk1 hk2
      rw [hdead] at this
      exact absurd this (by decide)
    · constructor
      · intro _; exact hall
      · intro _; simp
    · intro _; exact ⟨rfl, rfl⟩
  · obtain ⟨k, hk1, hk2, hdead, halive⟩ :=
      exists_first_dead (fun k => (sysAfter env k 0 sys).alive (read_pid sys)) 10 hall
    have hrun := stop_daemon_stopped_at env sys hpos hlive k hk1 hk2 halive hdead
    have hnk : ∀ p, Event.kill p SIGKILL ∉
        [Event.kill (read_pid sys) 0, Event.kill (read_pid sys) SIGINT]
          ++ stopPolls (read_pid sys) k ++ [Event.unlink_pid] := by
      intro p hm
      simp only [List.mem_append, List.mem_cons, List.mem_singleton, Event.kill.injEq,
        List.not_mem_nil, or_false] at hm
      rcases hm with ((h | h) | h) | h
      · exact absurd h.2 (by decide)
      · exact absurd h.2 (by decide)
      · exact hnoKill k p SIGKILL (by decide) h
      · simp at h
    refine ⟨by rw [hrun], by rw [hrun], ?_, ⟨k, hk1, hk2, Or.inl (by rw [hrun])⟩, ?_, ?_, ?_⟩
    · rw [hrun]
      simp [List.count_append, hcount, List.count_cons, e1]
    · intro k2 hk21 hk22 halive2 hdead2
      have hrun2 := stop_daemon_stopped_at env sys hpos hlive k2 hk21 hk22 halive2 hdead2
      rw [hrun2]
      refine ⟨rfl, rfl, ?_⟩
      have hnk2 : ∀ p, Event.kill p SIGKILL ∉
          [Event.kill (read_pid sys) 0, Event.kill (read_pid sys) SIGINT]
            ++ stopPolls (read_pid sys) k2 ++ [Event.unlink_pid] := by
        intro p hm
        simp only [List.mem_append, List.mem_cons, List.mem_singleton, Event.kill.injEq,
          List.not_mem_nil, or_false] at hm
        rcases hm with ((h | h) | h) | h
        · exact absurd h.2 (by decide)
        · exact absurd h.2 (by decide)
        · exact hnoKill k2 p SIGKILL (by decide) h
        · simp at h
      exact hnk2
    · rw [hrun]
      constructor
      · intro hm; exact absurd hm (hnk _)
      · intro h; exact absurd h hall
    · rw [hrun]
      intro hm; exact absurd hm (hnk _)

/-- An instance of C6: the process 4242 is gone at the third probe; `stop` prints "stopped"
after one SIGINT and three rounds of sleep and probe. -/
theorem stop_daemon_live_witness :
    ((stop_daemon envDiesAtThree (St.init sysRunning)).2.trace.count
        (Event.kill (read_pid sysRunning) SIGINT) = 1) ∧
    (stop_daemon envDiesAtThree (St.init sysRunning)).2.out = "stopped\n".toList ∧
    (stop_daemon envDiesAtThree (St.init sysRunning)).2.trace =
        [Event.kill (read_pid sysRunning) 0, Event.kill (read_pid sysRunning) SIGINT]
          ++ stopPolls (read_pid sysRunning) 3 ++ [Event.unlink_pid] :=
  have h := stop_daemon_live envDiesAtThree sysRunning (by decide) (by decide)
  have h3 := h.2.2.2.2.1 3 (by decide) (by decide) (by decide) (by decide)
  ⟨h.2.2.1, h3.1, h3.2.1⟩

/-! ## The polling loop of `run_daemon` -/

theorem run_daemon_loop_none (env : Env) (n : Nat) : ∀ st : St,
    (∀ j, 1 ≤ j → j ≤ n → live_recorded (sysAfter env j st.clock st.sys) = false) →
    run_daemon_loop env n st =
      (0, { sys := sysAfter env n st.clock st.sys, clock := st.clock + n, forks := st.forks,
            out := st.out ++ "stopped\n".toList,
            trace := st.trace ++ runPolls env n st.clock st.sys }) := by
  induction n with
  | zero => intro st _; simp [run_daemon_loop, sysAfter, runPolls, printf]
  | succ n ih =>
    intro st h
    have h1 : (decide (0 < read_pid (env.tick st.clock st.sys)) &&
        (env.tick st.clock st.sys).alive (read_pid (env.tick st.clock st.sys))) = false :=
      h 1 (by omega) (by omega)
    have hrest : ∀ j, 1 ≤ j → j ≤ n →
        live_recorded (sysAfter env j (st.clock + 1) (env.tick st.clock st.sys)) = false :=
      fun j hj1 hj2 => h (j + 1) (by omega) (by omega)
    simp only [run_daemon_loop, pid_live_eq, sleep, h1]
    simp only [Bool.false_eq_true, if_false]
    rw [ih _ hrest]
    simp [sysAfter, runPolls, Nat.add_assoc, Nat.add_comm 1 n]

theorem run_daemon_loop_first (env : Env) (n : Nat) : ∀ (st : St) (k : Nat),
    1 ≤ k → k ≤ n →
    (∀ j, 1 ≤ j → j < k → live_recorded (sysAfter env j st.clock st.sys) = false) →
    live_recorded (sysAfter env k st.clock st.sys) = true →
    run_daemon_loop env n st =
      (0, { sys := sysAfter env k st.clock st.sys, clock := st.clock + k, forks := st.forks,
            out := st.out ++ "running\n".toList,
            trace := st.trace ++ runPolls env k st.clock st.sys }) := by
  induction n with
  | zero => intro st k h1 h2; omega
  | succ n ih =>
    intro st k hk1 hk2 hnone hlive
    cases k with
    | zero => omega
    | succ k =>
      cases k with
      | zero =>
        have h1 : (decide (0 < read_pid (env.tick st.clock st.sys)) &&
            (env.tick st.clock st.sys).alive (read_pid (env.tick st.clock st.sys))) = true :=
          hlive
        simp only [run_daemon_loop, pid_live_eq, sleep, h1]
        simp [printf, sysAfter, runPolls]
      | succ k =>
        have h1 : (decide (0 < read_pid (env.tick st.clock st.sys)) &&
            (env.tick st.clock st.sys).alive (read_pid (env.tick st.clock st.sys))) = false :=
          hnone 1 (by omega) (by omega)
        have hrest : ∀ j, 1 ≤ j → j < k + 1 →
            live_recorded (sysAfter env j (st.clock + 1) (env.tick st.clock st.sys)) = false :=
          fun j hj1 hj2 => hnone (j + 1) (by omega) (by omega)
        have hl : live_recorded (sysAfter env (k + 1) (st.clock + 1) (env.tick st.clock st.sys))
            = true := hlive
        simp only [run_daemon_loop, pid_live_eq, sleep, h1]
        simp only [Bool.false_eq_true, if_false]
        rw [ih _ (k + 1) (by omega) (by omega) hrest hl]
        simp [sysAfter, runPolls, Nat.add_assoc, Nat.add_comm 1 (k + 1)]

theorem mem_runPolls (env : Env) (k : Nat) : ∀ (c : Nat) (s : Sys),
    ∀ e ∈ runPolls env k c s, e = Event.sleep ∨ ∃ p, 0 < p ∧ e = Event.kill p 0 := by
  induction k with
  | zero => intro c s e he; simp [runPolls] at he
  | succ k ih =>
    intro c s e he
    simp only [runPolls, List.mem_cons, List.mem_append] at he
    rcases he with h | h | h
    · exact Or.inl h
    · split at h
      · rename_i hp
        simp only [List.mem_singleton] at h
        exact Or.inr ⟨_, hp, h⟩
      · simp at h
    · exact ih _ _ e h

theorem count_sleep_runPolls (env : Env) (k : Nat) : ∀ (c : Nat) (s : Sys),
    (runPolls env k c s).count Event.sleep = k := by
  induction k with
  | zero => intro c s; simp [runPolls]
  | succ k ih =>
    intro c s
    simp only [runPolls, List.count_cons_self, List.count_append, ih]
    split <;> simp [List.count_cons]

theorem length_runPolls (env : Env) (k : Nat) : ∀ (c : Nat) (s : Sys),
    (runPolls env k c s).length ≤ 2 * k := by
  induction k with
  | zero => intro c s; simp [runPolls]
  | succ k ih =>
    intro c s
    have := ih (c + 1) (env.tick c s)
    simp only [runPolls, List.length_cons, List.length_append]
    split <;> simp <;> omega

theorem exists_first_live (P : Nat → Bool) (n : Nat)
    (h : ¬ ∀ k, 1 ≤ k → k ≤ n → P k = false) :
    ∃ k, 1 ≤ k ∧ k ≤ n ∧ P k = true ∧ ∀ j, 1 ≤ j → j < k → P j = false := by
  have h2 : ¬ ∀ k, 1 ≤ k → k ≤ n → (!P k) = true := by
    intro hh; apply h; intro k hk1 hk2; simpa using hh k hk1 hk2
  obtain ⟨k, hk1, hk2, hk, hj⟩ := exists_first_dead (fun k => !P k) n h2
  exact ⟨k, hk1, hk2, by simpa using hk, fun j hj1 hj2 => by simpa using hj j hj1 hj2⟩

theorem run_daemon_parent_eq (env : Env) (sys : Sys) (fp : List Char)
    (hnot : ¬ (0 < read_pid sys ∧ sys.alive (read_pid sys) = true))
    (hcnf : sys.cnfFile = some fp) (hfp : fp ≠ []) (hfork : 0 < env.forkRet 0) :
    run_daemon env (St.init sys) =
      (Outcome.ret (run_daemon_loop env 10
          { sys := sys, clock := 0, forks := 1, out := [],
            trace := (if 0 < read_pid sys then [Event.kill (read_pid sys) 0] else [])
              ++ [Event.fork] }).1,
       (run_daemon_loop env 10
          { sys := sys, clock := 0, forks := 1, out := [],
            trace := (if 0 < read_pid sys then [Event.kill (read_pid sys) 0] else [])
              ++ [Event.fork] }).2) := by
  have hl := (not_live_iff sys).mp hnot
  have hfg := fgets_of_ne_nil MAX_CMD_LEN fp hfp
  rcases hfr : fgets_read (MAX_CMD_LEN - 1) fp with ⟨buf, rest⟩
  rw [hfr] at hfg
  have hf2 : ¬ env.forkRet 0 < 0 := by omega
  simp only [run_daemon, St.init, pid_live_eq, hl]
  simp only [hcnf, hfg, fork, hfork, hf2]
  simp

/-- C7: in every `run_daemon` that reaches the first fork (no live daemon
recorded, a config file that is not empty) and gets a positive pid from it,
the supervising caller returns 0 after between 1 and 10 rounds of sleeping,
re-reading the PID file and probing the pid read when it is positive.  It
prints "running" and stops polling at the first round `k` that observes a
recorded pid that is live, and prints "stopped" exactly when none of the 10
rounds observed one.  It never writes or removes the PID file: the system it
leaves is what the rest of the system made of it during the sleeps. -/
theorem run_daemon_parent (env : Env) (sys : Sys) (fp : List Char)
    (hnot : ¬ (0 < read_pid sys ∧ sys.alive (read_pid sys) = true))
    (hcnf : sys.cnfFile = some fp) (hfp : fp ≠ []) (hfork : 0 < env.forkRet 0) :
    (run_daemon env (St.init sys)).1 = Outcome.ret 0 ∧
    (∃ k, 1 ≤ k ∧ k ≤ 10 ∧
      (run_daemon env (St.init sys)).2.trace =
        (if 0 < read_pid sys then [Event.kill (read_pid sys) 0] else []) ++ [Event.fork]
          ++ runPolls env k 0 sys ∧
      (runPolls env k 0 sys).count Event.sleep = k ∧
      (runPolls env k 0 sys).length ≤ 2 * k ∧
      (run_daemon env (St.init sys)).2.sys = sysAfter env k 0 sys) ∧
    (∀ k, 1 ≤ k → k ≤ 10 →
      (∀ j, 1 ≤ j → j < k → live_recorded (sysAfter env j 0 sys) = false) →
      live_recorded (sysAfter env k 0 sys) = true →
      (run_daemon env (St.init sys)).2.out = "running\n".toList ∧
      (run_daemon env (St.init sys)).2.trace =
        (if 0 < read_pid sys then [Event.kill (read_pid sys) 0] else []) ++ [Event.fork]
          ++ runPolls env k 0 sys ∧
      (run_daemon env (St.init sys)).2.trace.count Event.sleep = k) ∧
    ((run_daemon env (St.init sys)).2.out = "stopped\n".toList ↔
      ∀ k, 1 ≤ k → k ≤ 10 → live_recorded (sysAfter env k 0 sys) = false) ∧
    ((run_daemon env (St.init sys)).2.out = "running\n".toList ∨
      (run_daemon env (St.init sys)).2.out = "stopped\n".toList) ∧
    Event.unlink_pid ∉ (run_daemon env (St.init sys)).2.trace ∧
    Event.fopen_pid_w ∉ (run_daemon env (St.init sys)).2.trace := by
  have heq := run_daemon_parent_eq env sys fp hnot hcnf hfp hfork
  have hmem : ∀ (k : Nat) (e : Event), (∀ p sig, e ≠ Event.kill p sig) → e ≠ Event.sleep →
      e ≠ Event.fork →
      e ∉ (if 0 < read_pid sys then [Event.kill (read_pid sys) 0] else []) ++ [Event.fork]
          ++ runPolls env k 0 sys := by
    intro k e hk hs hf hm
    simp only [List.mem_append, List.mem_singleton] at hm
    rcases hm with (h | h) | h
    · split at h
      · simp only [List.mem_singleton] at h; exact hk _ _ h
      · simp at h
    · exact hf h
    · rcases mem_runPolls env k 0 sys e h with h2 | ⟨p, _, h2⟩
      · exact hs h2
      · exact hk _ _ h2
  have hcnt : ∀ k : Nat,
      ((if 0 < read_pid sys then [Event.kill (read_pid sys) 0] else []) ++ [Event.fork]
          ++ runPolls env k 0 sys).count Event.sleep = k := by
    intro k
    rw [List.count_append, count_sleep_runPolls]
    split <;> simp [List.count_cons]
  by_cases hall : ∀ k, 1 ≤ k → k ≤ 10 → live_recorded (sysAfter env k 0 sys) = false
  · have hloop := run_daemon_loop_none env 10
      { sys := sys, clock := 0, forks := 1, out := [],
        trace := (if 0 < read_pid sys then [Event.kill (read_pid sys) 0] else [])
          ++ [Event.fork] } hall
    rw [hloop] at heq
    rw [heq]
    refine ⟨rfl, ⟨10, by omega, by omega, rfl, count_sleep_runPolls env 10 0 sys,
      length_runPolls env 10 0 sys, rfl⟩, ?_, ?_, Or.inr rfl, ?_, ?_⟩
    · intro k hk1 hk2 _ hlive
      have := hall k hk1 hk2
      rw [hlive] at this
      exact absurd this (by decide)
    · exact ⟨fun _ => hall, fun _ => rfl⟩
    · exact hmem 10 _ (by intro p s; simp) (by simp) (by simp)
    · exact hmem 10 _ (by intro p s; simp) (by simp) (by simp)
  · obtain ⟨k, hk1, hk2, hlive, hnone⟩ :=
      exists_first_live (fun k => live_recorded (sysAfter env k 0 sys)) 10 hall
    have hloop := run_daemon_loop_first env 10
      { sys := sys, clock := 0, forks := 1, out := [],
        trace := (if 0 < read_pid sys then [Event.kill (read_pid sys) 0] else [])
          ++ [Event.fork] } k hk1 hk2 hnone hlive
    rw [hloop] at heq
    refine ⟨by rw [heq], ⟨k, hk1, hk2, by rw [heq], count_sleep_runPolls env k 0 sys,
      length_runPolls env k 0 sys, by rw [heq]⟩, ?_, ?_, Or.inl (by rw [heq]; rfl), ?_, ?_⟩
    · intro k2 hk21 hk22 hnone2 hlive2
      have hloop2 := run_daemon_loop_first env 10
        { sys := sys, clock := 0, forks := 1, out := [],
          trace := (if 0 < read_pid sys then [Event.kill (read_pid sys) 0] else [])
            ++ [Event.fork] } k2 hk21 hk22 hnone2 hlive2
      have heq2 := run_daemon_parent_eq env sys fp hnot hcnf hfp hfork
      rw [hloop2] at heq2
      rw [heq2]
      exact ⟨rfl, rfl, hcnt k2⟩
    · rw [heq]
      constructor
      · intro h
        have h2 : "running\n".toList = "stopped\n".toList := h
        exact absurd h2 (by decide)
      · intro h; exact absurd h hall
    · rw [heq]; exact hmem k _ (by intro p s; simp) (by simp) (by simp)
    · rw [heq]; exact hmem k _ (by intro p s; simp) (by simp) (by simp)

/-- An instance of C7: the daemon writes its PID file during the second sleep; the caller
prints "running" after two rounds. -/
theorem run_daemon_parent_witness :
    (run_daemon envStartsAtTwo (St.init sysConfigured)).1 = Outcome.ret 0 ∧
    (run_daemon envStartsAtTwo (St.init sysConfigured)).2.out = "running\n".toList ∧
    (run_daemon envStartsAtTwo (St.init sysConfigured)).2.trace.count Event.sleep = 2 ∧
    Event.unlink_pid ∉ (run_daemon envStartsAtTwo (St.init sysConfigured)).2.trace ∧
    Event.fopen_pid_w ∉ (run_daemon envStartsAtTwo (St.init sysConfigured)).2.trace :=
  have h := run_daemon_parent envStartsAtTwo sysConfigured "sleep 30\n".toList
    (by decide) rfl (by decide) (by decide)
  have h2 := h.2.2.1 2 (by decide) (by decide) (by decide) (by decide)
  ⟨h.1, h2.1, h2.2.2, h.2.2.2.2.2.1, h.2.2.2.2.2.2⟩

end Daemonsync
